import Mathlib

/-!
Verification of the Realtime Audio Bridge of `src/index.tsx`
(component `LiveAudioComponent`).

The development shallowly embeds:
  * the sample conversion of `createBlob` (JS `Int16Array` element
    assignment: truncation toward zero, then reduction modulo 2^16 into
    the signed 16-bit range);
  * the byte-level reinterpretations (`Uint8Array(int16.buffer)` and
    `new Int16Array(data.buffer)`, little-endian);
  * the textual transport helpers `encode`/`decode`, whose `btoa`/`atob`
    platform calls are standard base64 over the usual alphabet;
  * the inverse scaling of `decodeAudioData`;
  * the playback scheduler of the `onmessage` callback
    (`nextStartTime = max(nextStartTime, currentTime)`; start at
    `nextStartTime`; `nextStartTime += duration`);
  * the lifecycle state machine of the component (`startSession`,
    `cleanup`, the live-session callbacks and their error paths).

Audio samples and timestamps are modelled as rationals; the arithmetic
performed by the code on them (multiplication and division by the power
of two 32768, comparison, addition of durations) is exact in binary
floating point over the magnitudes involved, so the rational model is
faithful for the properties proved here.
-/

/-! ## Sample conversion (`createBlob` / `decodeAudioData` scaling) -/

/-- Truncation toward zero of a rational, as performed by JavaScript's
`ToIntegerOrInfinity` when a float is assigned to an `Int16Array` slot. -/
def ratTrunc (q : ℚ) : ℤ := if 0 ≤ q then ⌊q⌋ else ⌈q⌉

/-- Reduction of an integer modulo 2^16 into the signed 16-bit range
[-32768, 32767], the final step of JS `ToInt16`. -/
def toInt16 (n : ℤ) : ℤ := (n + 32768) % 65536 - 32768

/-- The per-sample conversion of `createBlob`:
`int16[i] = data[i] * 32768` under `Int16Array` assignment semantics. -/
def encodeSampleInt (x : ℚ) : ℤ := toInt16 (ratTrunc (x * 32768))

/-- The per-sample inverse scaling of `decodeAudioData`:
`channelData[i] = dataInt16[i] / 32768.0`. -/
def decodeSampleQ (n : ℤ) : ℚ := (n : ℚ) / 32768

/-- The sample-to-int16 part of `createBlob` over a whole captured frame. -/
def createBlobInts (xs : List ℚ) : List ℤ := xs.map encodeSampleInt

/-! ## Byte-level reinterpretation

`createBlob` exposes the `Int16Array` as bytes via
`new Uint8Array(int16.buffer)` (little-endian on the platforms the app
runs on), and `decodeAudioData` reverses this with
`new Int16Array(data.buffer)`. -/

/-- Little-endian byte pair of an integer stored in an `Int16Array` slot. -/
def int16ToBytes (n : ℤ) : List ℕ :=
  [((n % 65536).toNat) % 256, ((n % 65536).toNat) / 256]

/-- `new Uint8Array(int16.buffer)`: the byte sequence underlying an
`Int16Array`. -/
def intsToBytes : List ℤ → List ℕ
  | [] => []
  | n :: rest => int16ToBytes n ++ intsToBytes rest

/-- Signed 16-bit value of a little-endian 16-bit unsigned word, as read
back from an `Int16Array` slot. -/
def toSigned16 (u : ℕ) : ℤ := if u < 32768 then (u : ℤ) else (u : ℤ) - 65536

/-- `new Int16Array(data.buffer)` applied to an even-length byte
sequence: successive little-endian byte pairs become signed 16-bit
values.  (Odd-length buffers are rejected by the constructor; see
`decodeAudioDataM`.) -/
def bytesToInt16s : List ℕ → List ℤ
  | b0 :: b1 :: rest => toSigned16 (b0 + 256 * b1) :: bytesToInt16s rest
  | _ => []

/-! ## Base64 transport helpers (`encode` / `decode`)

`encode` turns the bytes into a binary string (one char per byte) and
calls the platform `btoa`; `decode` calls `atob` and reads the char
codes back.  `btoa`/`atob` are standard base64 over the alphabet below
(WHATWG infra "forgiving-base64" in its canonical form). -/

/-- The base64 alphabet used by `btoa`/`atob`. -/
def b64Chars : List Char :=
  ['A', 'B', 'C', 'D', 'E', 'F', 'G', 'H', 'I', 'J', 'K', 'L', 'M',
   'N', 'O', 'P', 'Q', 'R', 'S', 'T', 'U', 'V', 'W', 'X', 'Y', 'Z',
   'a', 'b', 'c', 'd', 'e', 'f', 'g', 'h', 'i', 'j', 'k', 'l', 'm',
   'n', 'o', 'p', 'q', 'r', 's', 't', 'u', 'v', 'w', 'x', 'y', 'z',
   '0', '1', '2', '3', '4', '5', '6', '7', '8', '9', '+', '/']

/-- The alphabet character of a sextet value. -/
def sextetToChar (n : ℕ) : Char := b64Chars.getD n '='

/-- The sextet value of an alphabet character (position in the table). -/
def charToSextet (c : Char) : ℕ := b64Chars.findIdx (fun x => x = c)

/-- The `encode` helper: bytes to base64 text (`btoa` of the binary
string built by `String.fromCharCode` over the bytes). -/
def b64Encode : List ℕ → List Char
  | [] => []
  | [a] => [sextetToChar (a / 4), sextetToChar (a % 4 * 16), '=', '=']
  | [a, b] => [sextetToChar (a / 4), sextetToChar (a % 4 * 16 + b / 16),
               sextetToChar (b % 16 * 4), '=']
  | a :: b :: c :: rest =>
      sextetToChar (a / 4) :: sextetToChar (a % 4 * 16 + b / 16) ::
      sextetToChar (b % 16 * 4 + c / 64) :: sextetToChar (c % 64) ::
      b64Encode rest

/-- The `decode` helper: base64 text back to bytes (`atob`, then
`charCodeAt` on every position of the resulting binary string). -/
def b64Decode : List Char → List ℕ
  | c1 :: c2 :: c3 :: c4 :: rest =>
      let s1 := charToSextet c1
      let s2 := charToSextet c2
      if c3 = '=' then [s1 * 4 + s2 / 16]
      else
        let s3 := charToSextet c3
        if c4 = '=' then [s1 * 4 + s2 / 16, s2 % 16 * 16 + s3 / 4]
        else (s1 * 4 + s2 / 16) :: (s2 % 16 * 16 + s3 / 4) ::
             (s3 % 4 * 64 + charToSextet c4) :: b64Decode rest
  | _ => []

/-- The complete `createBlob`: samples to int16, int16 buffer to bytes,
bytes to base64 text (the `data` field of the returned blob). -/
def createBlobData (xs : List ℚ) : List Char :=
  b64Encode (intsToBytes (createBlobInts xs))

/-! ## `decodeAudioData` -/

/-- `decodeAudioData` on a byte payload: the `Int16Array` constructor
requires an even byte length (otherwise it throws and the step aborts);
then `frameCount = dataInt16.length / numChannels` frames are produced
per channel, channel `ch` taking `dataInt16[i * numChannels + ch] /
32768`.  The sample-rate argument only tags the produced buffer and does
not affect the samples, so it is omitted here. -/
def decodeAudioDataM (bs : List ℕ) (numChannels : ℕ) :
    Option (List (List ℚ)) :=
  if bs.length % 2 = 0 then
    let ints := bytesToInt16s bs
    let frameCount := ints.length / numChannels
    some ((List.range numChannels).map fun ch =>
      (List.range frameCount).map fun i =>
        decodeSampleQ (ints.getD (i * numChannels + ch) 0))
  else none

/-! ## Inbound playback scheduler

The `onmessage` callback keeps a running marker `nextStartTime` and, for
every inbound audio frame, executes

  nextStartTime = Math.max(nextStartTime, outputCtx.currentTime);
  source.start(nextStartTime);
  nextStartTime += audioBuffer.duration;

A frame is modelled as the pair (duration, playback-clock reading at the
moment the message is handled). -/

/-- One `onmessage` scheduling step: from the current `nextStartTime`
and a frame `(duration, currentTime)`, the chosen start time and the
updated `nextStartTime`. -/
def schedStep (nst : ℚ) (f : ℚ × ℚ) : ℚ × ℚ :=
  (max nst f.2, max nst f.2 + f.1)

/-- The start times (paired with their durations) chosen for a sequence
of inbound frames processed in arrival order. -/
def sched (nst : ℚ) : List (ℚ × ℚ) → List (ℚ × ℚ)
  | [] => []
  | f :: rest => ((schedStep nst f).1, f.1) :: sched (schedStep nst f).2 rest

/-- The successive values taken by the `nextStartTime` marker. -/
def nstTrace (nst : ℚ) : List (ℚ × ℚ) → List ℚ
  | [] => []
  | f :: rest => (schedStep nst f).2 :: nstTrace (schedStep nst f).2 rest

/-! ## Bridge lifecycle state machine

State of one `LiveAudioComponent` instance.  Audio contexts are given
identity: every context ever constructed by the component is an entry of
`inputCtxs`/`outputCtxs` (`true` while open), and `curInput`/`curOutput`
are the indices currently referenced by `audioContexts.value`.  The
microphone stream and the session are modelled likewise but without
identity (the code keeps at most one reference to each).  `errorCount`
and `speakingCount` count the `'error'` and `'speaking-start'` emits. -/

structure BridgeState where
  isRecording : Bool
  inputCtxs : List Bool
  outputCtxs : List Bool
  curInput : Option ℕ
  curOutput : Option ℕ
  streamLive : Option Bool
  sessionOpen : Option Bool
  nextStartTime : ℚ
  errorCount : ℕ
  speakingCount : ℕ
  deriving DecidableEq

/-- The state a freshly mounted component starts in. -/
def initState : BridgeState :=
  { isRecording := false, inputCtxs := [], outputCtxs := [],
    curInput := none, curOutput := none, streamLive := none,
    sessionOpen := none, nextStartTime := 0, errorCount := 0,
    speakingCount := 0 }

/-- Closing the context a (possibly absent) reference points to.
Closing an already-closed context leaves the state unchanged (the
platform call merely returns a rejected promise). -/
def closeIdx (l : List Bool) : Option ℕ → List Bool
  | none => l
  | some i => l.set i false

/-- `cleanup` (also exposed as `stopSession` and run `onUnmounted`):

  isRecording.value = false;
  session?.close();
  stream?.getTracks().forEach(t => t.stop());
  audioContexts.value.input?.close();
  audioContexts.value.output?.close();
  session = null;

Stopping an already-stopped track and closing an already-closed context
are no-ops; the stream and context references themselves are not
cleared. -/
def cleanup (s : BridgeState) : BridgeState :=
  { s with
    isRecording := false
    sessionOpen := none
    streamLive := s.streamLive.map (fun _ => false)
    inputCtxs := closeIdx s.inputCtxs s.curInput
    outputCtxs := closeIdx s.outputCtxs s.curOutput }

/-- The synchronous prefix of `startSession`: the `isRecording` guard,
then construction of the two fixed-rate `AudioContext`s and assignment
of `audioContexts.value`.  The Boolean reports whether the guard was
passed (everything after this point in `startSession` is behind an
`await`). -/
def startSync (s : BridgeState) : BridgeState × Bool :=
  if s.isRecording then (s, false)
  else
    ({ s with
        inputCtxs := s.inputCtxs ++ [true]
        outputCtxs := s.outputCtxs ++ [true]
        curInput := some s.inputCtxs.length
        curOutput := some s.outputCtxs.length }, true)

/-- `startSession` when `getUserMedia` rejects (microphone permission
denied): the `catch` block runs `console.error(err); cleanup();` — no
emit. -/
def startDenied (s : BridgeState) : BridgeState :=
  let r := startSync s
  if r.2 then cleanup r.1 else r.1

/-- `startSession` when the input `AudioContext` constructor itself
throws: no context was created, the `catch` block runs `cleanup`. -/
def startDeviceFailIn (s : BridgeState) : BridgeState :=
  if s.isRecording then s else cleanup s

/-- `startSession` when the input context is constructed but the output
`AudioContext` constructor throws: the throw happens before
`audioContexts.value` is reassigned, so the fresh input context is
orphaned and the `catch` block's `cleanup` closes only the previously
referenced contexts. -/
def startDeviceFailOut (s : BridgeState) : BridgeState :=
  if s.isRecording then s
  else cleanup { s with inputCtxs := s.inputCtxs ++ [true] }

/-- `startSession` when `ai.live.connect` rejects (handshake failure):
the stream was acquired, `onopen` never fired, and the `catch` block
runs `cleanup`. -/
def startHandshakeFail (s : BridgeState) : BridgeState :=
  let r := startSync s
  if r.2 then cleanup { r.1 with streamLive := some true } else r.1

/-- `startSession` running to a successful handshake: stream acquired,
`onopen` sets `isRecording`, and `session = await sessionPromise`
completes. -/
def startOk (s : BridgeState) : BridgeState :=
  let r := startSync s
  if r.2 then
    { r.1 with streamLive := some true, isRecording := true,
               sessionOpen := some true }
  else r.1

/-- The `onerror` live-session callback:
`emit('error', e); cleanup();`. -/
def remoteError (s : BridgeState) : BridgeState :=
  cleanup { s with errorCount := s.errorCount + 1 }

/-- The `onclose` live-session callback: `cleanup()` alone. -/
def remoteClosed (s : BridgeState) : BridgeState :=
  cleanup s

/-- Owner-visible lifecycle events, each running atomically (the next
event is only delivered after the previous `startSession` attempt has
settled). -/
inductive BridgeEv where
  | startOkE
  | startDeniedE
  | startDeviceFailInE
  | startDeviceFailOutE
  | startHandshakeFailE
  | stopE
  | remoteErrorE
  | remoteClosedE
  deriving DecidableEq

/-- Effect of one event on the bridge state. -/
def stepEv (s : BridgeState) : BridgeEv → BridgeState
  | .startOkE => startOk s
  | .startDeniedE => startDenied s
  | .startDeviceFailInE => startDeviceFailIn s
  | .startDeviceFailOutE => startDeviceFailOut s
  | .startHandshakeFailE => startHandshakeFail s
  | .stopE => cleanup s
  | .remoteErrorE => remoteError s
  | .remoteClosedE => remoteClosed s

/-- Running a sequence of lifecycle events. -/
def runEvs (s : BridgeState) : List BridgeEv → BridgeState
  | [] => s
  | e :: rest => runEvs (stepEv s e) rest

/-- Number of contexts of a pool that are still open. -/
def aliveCount : List Bool → ℕ
  | [] => 0
  | true :: r => aliveCount r + 1
  | false :: r => aliveCount r

/-- The context a reference points to is closed (or there is no
reference). -/
def curClosed (l : List Bool) : Option ℕ → Prop
  | none => True
  | some i => l.getD i false = false

instance curClosedDec (l : List Bool) : (o : Option ℕ) → Decidable (curClosed l o)
  | none => isTrue trivial
  | some i => instDecidableEqBool (l.getD i false) false

/-- Full teardown, as owner-observable state: not recording, no session,
no live stream, and the referenced contexts closed. -/
def tornDown (s : BridgeState) : Prop :=
  s.isRecording = false ∧ s.sessionOpen = none ∧ s.streamLive ≠ some true ∧
  curClosed s.inputCtxs s.curInput ∧ curClosed s.outputCtxs s.curOutput

instance tornDownDec (s : BridgeState) : Decidable (tornDown s) := by
  unfold tornDown
  infer_instance

/-- Single-ownership invariant of one context pool: while recording, the
referenced context is the unique open one; otherwise none is open. -/
def poolInv (l : List Bool) (cur : Option ℕ) : Prop :=
  ∃ i, cur = some i ∧ l.getD i false = true ∧ aliveCount l = 1

/-- The resource invariant maintained by atomic lifecycle events. -/
def liveInv (s : BridgeState) : Prop :=
  if s.isRecording then
    poolInv s.inputCtxs s.curInput ∧ poolInv s.outputCtxs s.curOutput
  else aliveCount s.inputCtxs = 0 ∧ aliveCount s.outputCtxs = 0

/-- The state reached by the synchronous prefix of `startSession` when
the guard is passed (named for use in lemma statements). -/
def startSyncState (s : BridgeState) : BridgeState :=
  { s with
      inputCtxs := s.inputCtxs ++ [true]
      outputCtxs := s.outputCtxs ++ [true]
      curInput := some s.inputCtxs.length
      curOutput := some s.outputCtxs.length }

/-! ## Basic lemmas about the byte and base64 layers -/

theorem charToSextet_sextetToChar : ∀ n : ℕ, n < 64 →
    charToSextet (sextetToChar n) = n := by decide

theorem sextetToChar_ne_eq : ∀ n : ℕ, n < 64 → sextetToChar n ≠ '=' := by
  decide

/-- Round trip of the transport helpers on byte sequences. -/
theorem b64Decode_b64Encode : ∀ bs : List ℕ, (∀ b ∈ bs, b < 256) →
    b64Decode (b64Encode bs) = bs
  | [], _ => by simp [b64Encode, b64Decode]
  | [a], h => by
      have ha : a < 256 := h a (by simp)
      have h1 : a / 4 < 64 := by omega
      have h2 : a % 4 * 16 < 64 := by omega
      simp [b64Encode, b64Decode,
        charToSextet_sextetToChar _ h1, charToSextet_sextetToChar _ h2]
      omega
  | [a, b], h => by
      have ha : a < 256 := h a (by simp)
      have hb : b < 256 := h b (by simp)
      have h1 : a / 4 < 64 := by omega
      have h2 : a % 4 * 16 + b / 16 < 64 := by omega
      have h3 : b % 16 * 4 < 64 := by omega
      simp [b64Encode, b64Decode, sextetToChar_ne_eq _ h3,
        charToSextet_sextetToChar _ h1,
        charToSextet_sextetToChar _ h2, charToSextet_sextetToChar _ h3]
      constructor
      · omega
      · omega
  | a :: b :: c :: rest, h => by
      have ha : a < 256 := h a (by simp)
      have hb : b < 256 := h b (by simp)
      have hc : c < 256 := h c (by simp)
      have h1 : a / 4 < 64 := by omega
      have h2 : a % 4 * 16 + b / 16 < 64 := by omega
      have h3 : b % 16 * 4 + c / 64 < 64 := by omega
      have h4 : c % 64 < 64 := by omega
      have hrest : ∀ x ∈ rest, x < 256 := fun x hx => h x (by simp [hx])
      simp [b64Encode, b64Decode, sextetToChar_ne_eq _ h3,
        sextetToChar_ne_eq _ h4,
        charToSextet_sextetToChar _ h1, charToSextet_sextetToChar _ h2,
        charToSextet_sextetToChar _ h3, charToSextet_sextetToChar _ h4,
        b64Decode_b64Encode rest hrest]
      refine ⟨by omega, by omega, by omega⟩

/-- The bytes produced by `intsToBytes` are genuine bytes. -/
theorem intsToBytes_lt_256 : ∀ l : List ℤ, ∀ b ∈ intsToBytes l, b < 256
  | [], b, hb => by simp [intsToBytes] at hb
  | n :: rest, b, hb => by
      simp only [intsToBytes, int16ToBytes, List.mem_append,
        List.mem_cons, List.mem_singleton] at hb
      rcases hb with (rfl | rfl | h) | h
      · omega
      · have : (n % 65536).toNat < 65536 := by omega
        omega
      · simp at h
      · exact intsToBytes_lt_256 rest b h

/-- Reading back the little-endian byte pairs recovers every integer
that was stored in signed 16-bit range. -/
theorem bytesToInt16s_intsToBytes : ∀ l : List ℤ,
    (∀ n ∈ l, -32768 ≤ n ∧ n < 32768) →
    bytesToInt16s (intsToBytes l) = l
  | [], _ => by simp [intsToBytes, bytesToInt16s]
  | n :: rest, h => by
      have hn : -32768 ≤ n ∧ n < 32768 := h n (by simp)
      have hrest : ∀ m ∈ rest, -32768 ≤ m ∧ m < 32768 :=
        fun m hm => h m (by simp [hm])
      simp [intsToBytes, int16ToBytes, bytesToInt16s,
        bytesToInt16s_intsToBytes rest hrest]
      have hto : (n % 65536).toNat % 256 + 256 * ((n % 65536).toNat / 256)
          = (n % 65536).toNat := by omega
      rw [hto]
      simp only [toSigned16]
      split <;> omega

/-- `bytesToInt16s` produces one value per byte pair. -/
theorem bytesToInt16s_length : ∀ bs : List ℕ,
    (bytesToInt16s bs).length = bs.length / 2
  | [] => by simp [bytesToInt16s]
  | [b] => by simp [bytesToInt16s]
  | b0 :: b1 :: rest => by
      simp only [bytesToInt16s, List.length_cons,
        bytesToInt16s_length rest]
      omega

/-- Reindexing a list through `List.range` of its length is the list
itself (the shape of the copy loop in `decodeAudioData`). -/
theorem range_map_getD {α β : Type} (l : List α) (d : α) (f : α → β) :
    (List.range l.length).map (fun i => f (l.getD i d)) = l.map f := by
  induction l with
  | nil => simp
  | cons a t ih =>
      simp only [List.length_cons, List.range_succ_eq_map, List.map_cons,
        List.map_map, List.getD_cons_zero, List.cons.injEq, true_and]
      rw [show ((fun i => f ((a :: t).getD i d)) ∘ Nat.succ)
            = (fun i => f (t.getD i d)) from funext (fun i => by simp), ih]

/-! ## Sample-conversion lemmas -/

/-- `toInt16` always lands in the signed 16-bit range. -/
theorem toInt16_range (n : ℤ) : -32768 ≤ toInt16 n ∧ toInt16 n < 32768 := by
  unfold toInt16
  omega

/-- `toInt16` is the identity on the signed 16-bit range. -/
theorem toInt16_eq_self (n : ℤ) (h1 : -32768 ≤ n) (h2 : n ≤ 32767) :
    toInt16 n = n := by
  unfold toInt16
  omega

/-- Truncation toward zero moves a rational by less than one. -/
theorem abs_sub_ratTrunc_lt_one (q : ℚ) : |q - (ratTrunc q : ℚ)| < 1 := by
  unfold ratTrunc
  split
  · have h1 := Int.floor_le q
    have h2 := Int.lt_floor_add_one q
    rw [abs_of_nonneg (by linarith)]
    linarith
  · have h1 := Int.le_ceil q
    have h2 := Int.ceil_lt_add_one q
    rw [abs_of_nonpos (by linarith)]
    linarith

/-- For a rational in [-32768, 32768), truncation toward zero stays in
the signed 16-bit range, so no wrapping occurs. -/
theorem ratTrunc_range (q : ℚ) (h1 : -32768 ≤ q) (h2 : q < 32768) :
    -32768 ≤ ratTrunc q ∧ ratTrunc q ≤ 32767 := by
  unfold ratTrunc
  split
  · rename_i h0
    constructor
    · exact le_trans (by norm_num) (Int.floor_nonneg.mpr h0)
    · have : ⌊q⌋ < (32768 : ℤ) := Int.floor_lt.mpr (by exact_mod_cast h2)
      omega
  · rename_i h0
    push_neg at h0
    constructor
    · have h3 := Int.le_ceil q
      have : ((-32768 : ℤ) : ℚ) ≤ (⌈q⌉ : ℚ) := by push_cast; linarith
      exact_mod_cast this
    · have : ⌈q⌉ ≤ (0 : ℤ) := Int.ceil_le.mpr (by exact_mod_cast le_of_lt h0)
      omega

/-- On in-range samples `createBlob`'s conversion does not wrap. -/
theorem encodeSampleInt_no_wrap (x : ℚ) (h1 : -1 ≤ x) (h2 : x < 1) :
    encodeSampleInt x = ratTrunc (x * 32768) := by
  unfold encodeSampleInt
  have hr : -32768 ≤ ratTrunc (x * 32768) ∧ ratTrunc (x * 32768) ≤ 32767 :=
    ratTrunc_range _ (by linarith) (by linarith)
  exact toInt16_eq_self _ hr.1 hr.2

/-- Per-sample round trip: within one quantization step for samples in
[-1, 1). -/
theorem sample_roundtrip_close (x : ℚ) (h1 : -1 ≤ x) (h2 : x < 1) :
    |decodeSampleQ (encodeSampleInt x) - x| ≤ 1 / 32768 := by
  rw [encodeSampleInt_no_wrap x h1 h2]
  have hc : |x * 32768 - (ratTrunc (x * 32768) : ℚ)| < 1 :=
    abs_sub_ratTrunc_lt_one (x * 32768)
  have he : decodeSampleQ (ratTrunc (x * 32768)) - x
      = -((x * 32768 - (ratTrunc (x * 32768) : ℚ)) / 32768) := by
    unfold decodeSampleQ
    ring
  rw [he, abs_neg, abs_div, abs_of_pos (by norm_num : (0 : ℚ) < 32768)]
  gcongr


/-- Every value stored in the `Int16Array` by `createBlob` is in signed
16-bit range. -/
theorem createBlobInts_range (xs : List ℚ) :
    ∀ n ∈ createBlobInts xs, -32768 ≤ n ∧ n < 32768 := by
  intro n hn
  unfold createBlobInts at hn
  rcases List.mem_map.mp hn with ⟨x, _, rfl⟩
  exact toInt16_range _

/-- `intsToBytes` doubles the length. -/
theorem intsToBytes_length : ∀ l : List ℤ,
    (intsToBytes l).length = 2 * l.length
  | [] => by simp [intsToBytes]
  | n :: rest => by
      simp only [intsToBytes, int16ToBytes, List.length_append,
        List.length_cons, intsToBytes_length rest]
      simp
      omega

/-- The full transport pipeline (int16 buffer → bytes → base64 →
bytes → int16 → floats) recovers the scaled-down samples, for any
int16 contents. -/
theorem pipeline_eq (l : List ℤ) (h : ∀ n ∈ l, -32768 ≤ n ∧ n < 32768) :
    decodeAudioDataM (b64Decode (b64Encode (intsToBytes l))) 1
      = some [l.map decodeSampleQ] := by
  rw [b64Decode_b64Encode _ (intsToBytes_lt_256 l)]
  unfold decodeAudioDataM
  rw [if_pos (by rw [intsToBytes_length]; omega)]
  rw [bytesToInt16s_intsToBytes l h]
  rw [show List.range 1 = [0] from rfl]
  simp only [List.map_cons, List.map_nil, Nat.div_one, mul_one, add_zero]
  rw [range_map_getD l 0 decodeSampleQ]

/-! ## Scheduler lemmas -/

/-- The first start chosen from marker `nst` is at least `nst`. -/
theorem sched_head_start_ge (frames : List (ℚ × ℚ)) (nst : ℚ) (p : ℚ × ℚ)
    (h : (sched nst frames).head? = some p) : nst ≤ p.1 := by
  cases frames with
  | nil => simp [sched] at h
  | cons f rest =>
      simp only [sched, List.head?_cons, Option.some.injEq] at h
      rw [← h]
      exact le_max_left _ _

/-- Consecutive scheduled frames never overlap: each start is at least
the previous start plus the previous duration. -/
theorem sched_chain_no_overlap : ∀ (frames : List (ℚ × ℚ)) (nst : ℚ),
    List.Chain' (fun p q : ℚ × ℚ => p.1 + p.2 ≤ q.1) (sched nst frames)
  | [], _ => List.chain'_nil
  | f :: rest, nst => by
      rw [sched, List.chain'_cons']
      refine ⟨fun q hq => ?_, sched_chain_no_overlap rest _⟩
      have := sched_head_start_ge rest (schedStep nst f).2 q
        (by simpa using hq)
      simpa [schedStep] using this

/-- With non-negative durations the chosen start times are
non-decreasing. -/
theorem sched_starts_mono : ∀ (frames : List (ℚ × ℚ)),
    (∀ f ∈ frames, 0 ≤ f.1) → ∀ nst : ℚ,
    List.Chain' (· ≤ ·) ((sched nst frames).map Prod.fst)
  | [], _, _ => by simp [sched]
  | f :: rest, h, nst => by
      rw [sched, List.map_cons, List.chain'_cons']
      constructor
      · intro b hb
        rw [List.head?_map] at hb
        rcases Option.map_eq_some'.mp (Option.mem_def.mp hb) with ⟨q, hq, rfl⟩
        have h1 := sched_head_start_ge rest (schedStep nst f).2 q hq
        have h2 : 0 ≤ f.1 := h f (by simp)
        have h3 : (schedStep nst f).1 + f.1 ≤ (schedStep nst f).2 := by
          simp [schedStep]
        calc (schedStep nst f).1 ≤ (schedStep nst f).2 := by linarith
            _ ≤ q.1 := h1
      · exact sched_starts_mono rest (fun g hg => h g (by simp [hg])) _

/-- With non-negative durations the `nextStartTime` marker never
decreases. -/
theorem nstTrace_mono : ∀ (frames : List (ℚ × ℚ)),
    (∀ f ∈ frames, 0 ≤ f.1) → ∀ nst : ℚ,
    List.Chain' (· ≤ ·) (nst :: nstTrace nst frames)
  | [], _, _ => by simp [nstTrace]
  | f :: rest, h, nst => by
      rw [nstTrace, List.chain'_cons]
      constructor
      · have h2 : 0 ≤ f.1 := h f (by simp)
        have : nst ≤ max nst f.2 := le_max_left _ _
        simp only [schedStep]
        linarith
      · exact nstTrace_mono rest (fun g hg => h g (by simp [hg])) _

/-! ## Bridge lifecycle lemmas -/

/-- Closing the same referenced context twice is the same as closing it
once. -/
theorem closeIdx_closeIdx (l : List Bool) (o : Option ℕ) :
    closeIdx (closeIdx l o) o = closeIdx l o := by
  cases o with
  | none => rfl
  | some i => simp [closeIdx, List.set_set]

/-- `cleanup` is idempotent on the whole state. -/
theorem cleanup_cleanup (s : BridgeState) : cleanup (cleanup s) = cleanup s := by
  simp only [cleanup, closeIdx_closeIdx, Option.map_map]
  cases s.streamLive <;> rfl

/-- `cleanup` fires no owner callback. -/
theorem cleanup_counts (s : BridgeState) :
    (cleanup s).errorCount = s.errorCount ∧
    (cleanup s).speakingCount = s.speakingCount := ⟨rfl, rfl⟩

/-- A context that a reference points at is closed after `closeIdx`. -/
theorem curClosed_closeIdx (l : List Bool) (o : Option ℕ) :
    curClosed (closeIdx l o) o := by
  cases o with
  | none => trivial
  | some i =>
      show (l.set i false).getD i false = false
      rcases Nat.lt_or_ge i l.length with h | h
      · simp [List.getD, List.getElem?_set_self, h]
      · simp [List.getD, List.getElem?_eq_none, h,
          (by simpa using h : l.length ≤ i)]

/-- After `cleanup` the bridge is fully torn down. -/
theorem tornDown_cleanup (s : BridgeState) : tornDown (cleanup s) := by
  refine ⟨rfl, rfl, ?_, curClosed_closeIdx _ _, curClosed_closeIdx _ _⟩
  cases s.streamLive <;> simp [cleanup]

/-! ## Context-pool counting lemmas -/

theorem aliveCount_append_true : ∀ l : List Bool,
    aliveCount (l ++ [true]) = aliveCount l + 1
  | [] => rfl
  | true :: r => by
      rw [List.cons_append]
      show aliveCount (r ++ [true]) + 1 = aliveCount r + 1 + 1
      rw [aliveCount_append_true r]
  | false :: r => by
      rw [List.cons_append]
      show aliveCount (r ++ [true]) = aliveCount r + 1
      rw [aliveCount_append_true r]

theorem aliveCount_set_false : ∀ (l : List Bool) (i : ℕ),
    aliveCount (l.set i false)
      + (if l.getD i false = true then 1 else 0) = aliveCount l
  | [], i => by simp [aliveCount, List.getD]
  | b :: r, 0 => by cases b <;> simp [aliveCount, List.getD]
  | b :: r, i + 1 => by
      have ih := aliveCount_set_false r i
      cases b <;>
        simp only [List.set_cons_succ, aliveCount, List.getD_cons_succ] <;>
        omega

theorem getD_append_length : ∀ l : List Bool,
    (l ++ [true]).getD l.length false = true
  | [] => rfl
  | _ :: r => by
      rw [List.cons_append]
      show (r ++ [true]).getD r.length false = true
      exact getD_append_length r

/-! ## Preservation of the resource invariant -/

/-- `cleanup` restores the not-recording resource invariant. -/
theorem liveInv_cleanup (s : BridgeState) (h : liveInv s) :
    liveInv (cleanup s) := by
  unfold liveInv at h ⊢
  simp only [cleanup, if_neg, Bool.false_eq_true, if_false]
  by_cases hrec : s.isRecording = true
  · rw [if_pos hrec] at h
    obtain ⟨⟨i, hci, hgi, hai⟩, ⟨j, hcj, hgj, haj⟩⟩ := h
    constructor
    · have := aliveCount_set_false s.inputCtxs i
      rw [hci]
      simp only [closeIdx]
      rw [hgi] at this
      norm_num at this
      omega
    · have := aliveCount_set_false s.outputCtxs j
      rw [hcj]
      simp only [closeIdx]
      rw [hgj] at this
      norm_num at this
      omega
  · rw [if_neg hrec] at h
    constructor
    · cases hc : s.curInput with
      | none => simpa [closeIdx, hc] using h.1
      | some i =>
          have := aliveCount_set_false s.inputCtxs i
          simp only [closeIdx, hc]
          omega
    · cases hc : s.curOutput with
      | none => simpa [closeIdx, hc] using h.2
      | some j =>
          have := aliveCount_set_false s.outputCtxs j
          simp only [closeIdx, hc]
          omega

/-- The state produced by a passed `startSync` guard satisfies the
recording-side invariant once recording, given the idle-side invariant
before. -/
theorem poolInv_append (l : List Bool) (h : aliveCount l = 0) :
    poolInv (l ++ [true]) (some l.length) :=
  ⟨l.length, rfl, getD_append_length l, by rw [aliveCount_append_true]; omega⟩

/-- Closing the just-appended context empties the pool again. -/
theorem aliveCount_close_appended (l : List Bool) (h : aliveCount l = 0) :
    aliveCount ((l ++ [true]).set l.length false) = 0 := by
  have h1 := aliveCount_set_false (l ++ [true]) l.length
  rw [getD_append_length l, aliveCount_append_true l] at h1
  rw [if_pos rfl] at h1
  omega

/-- Each atomic lifecycle event other than an output-context
construction failure preserves the resource invariant. -/
theorem liveInv_step (s : BridgeState) (e : BridgeEv) (h : liveInv s)
    (he : e ≠ BridgeEv.startDeviceFailOutE) : liveInv (stepEv s e) := by
  by_cases hrec : s.isRecording = true
  · have hguard : ∀ t : BridgeState × Bool, startSync s = t → t = (s, false) := by
      intro t ht
      rw [← ht]
      unfold startSync
      rw [if_pos hrec]
    cases e with
    | startOkE =>
        show liveInv (startOk s)
        unfold startOk
        rw [hguard _ rfl]
        exact h
    | startDeniedE =>
        show liveInv (startDenied s)
        unfold startDenied
        rw [hguard _ rfl]
        exact h
    | startDeviceFailInE =>
        show liveInv (startDeviceFailIn s)
        unfold startDeviceFailIn
        rw [if_pos hrec]
        exact h
    | startDeviceFailOutE => exact absurd rfl he
    | startHandshakeFailE =>
        show liveInv (startHandshakeFail s)
        unfold startHandshakeFail
        rw [hguard _ rfl]
        exact h
    | stopE => exact liveInv_cleanup s h
    | remoteErrorE => exact liveInv_cleanup _ h
    | remoteClosedE => exact liveInv_cleanup s h
  · have hrec' : s.isRecording = false := by
      cases hb : s.isRecording
      · rfl
      · exact absurd hb hrec
    rw [liveInv, if_neg hrec] at h
    have hsync : startSync s = ({ s with
        inputCtxs := s.inputCtxs ++ [true],
        outputCtxs := s.outputCtxs ++ [true],
        curInput := some s.inputCtxs.length,
        curOutput := some s.outputCtxs.length }, true) := by
      unfold startSync
      rw [if_neg hrec]
    cases e with
    | startOkE =>
        show liveInv (startOk s)
        unfold startOk
        rw [hsync]
        simp only [liveInv, if_pos]
        exact ⟨poolInv_append _ h.1, poolInv_append _ h.2⟩
    | startDeniedE =>
        show liveInv (startDenied s)
        unfold startDenied
        rw [hsync]
        simp only [liveInv, cleanup, closeIdx, Bool.false_eq_true, if_false]
        exact ⟨aliveCount_close_appended _ h.1, aliveCount_close_appended _ h.2⟩
    | startDeviceFailInE =>
        show liveInv (startDeviceFailIn s)
        unfold startDeviceFailIn
        rw [if_neg hrec]
        exact liveInv_cleanup s (by rw [liveInv, if_neg hrec]; exact h)
    | startDeviceFailOutE => exact absurd rfl he
    | startHandshakeFailE =>
        show liveInv (startHandshakeFail s)
        unfold startHandshakeFail
        rw [hsync]
        simp only [liveInv, cleanup, closeIdx, Bool.false_eq_true, if_false]
        exact ⟨aliveCount_close_appended _ h.1, aliveCount_close_appended _ h.2⟩
    | stopE => exact liveInv_cleanup s (by rw [liveInv, if_neg hrec]; exact h)
    | remoteErrorE =>
        exact liveInv_cleanup _ (by rw [liveInv, if_neg hrec]; exact h)
    | remoteClosedE =>
        exact liveInv_cleanup s (by rw [liveInv, if_neg hrec]; exact h)

/-- The resource invariant holds along every atomic event trace that
contains no output-context construction failure. -/
theorem liveInv_run : ∀ (tr : List BridgeEv) (s : BridgeState),
    liveInv s → BridgeEv.startDeviceFailOutE ∉ tr → liveInv (runEvs s tr)
  | [], s, h, _ => h
  | e :: rest, s, h, htr => by
      have he : e ≠ BridgeEv.startDeviceFailOutE := fun hcontra => by
        exact htr (by rw [hcontra]; exact List.mem_cons_self _ _)
      have hrest : BridgeEv.startDeviceFailOutE ∉ rest := fun hcontra =>
        htr (List.mem_cons_of_mem _ hcontra)
      exact liveInv_run rest (stepEv s e) (liveInv_step s e h he) hrest

/-- The invariant bounds the number of simultaneously open contexts. -/
theorem liveInv_alive_le_one (s : BridgeState) (h : liveInv s) :
    aliveCount s.inputCtxs ≤ 1 ∧ aliveCount s.outputCtxs ≤ 1 := by
  unfold liveInv at h
  split at h
  · obtain ⟨⟨i, _, _, hai⟩, ⟨j, _, _, haj⟩⟩ := h
    omega
  · omega

/-- The freshly mounted component satisfies the resource invariant. -/
theorem liveInv_init : liveInv initState := by
  rw [liveInv, if_neg (by decide)]
  exact ⟨rfl, rfl⟩

/-! ## Unfolding equations for the `startSession` outcomes -/

theorem startSync_not_recording (s : BridgeState)
    (h : s.isRecording = false) :
    startSync s = (startSyncState s, true) := by
  unfold startSync startSyncState
  rw [if_neg (by simp [h])]

theorem startSync_recording (s : BridgeState) (h : s.isRecording = true) :
    startSync s = (s, false) := by
  unfold startSync
  rw [if_pos h]

theorem startDenied_eq (s : BridgeState) (h : s.isRecording = false) :
    startDenied s = cleanup (startSyncState s) := by
  unfold startDenied
  rw [startSync_not_recording s h]
  rfl

theorem startHandshakeFail_eq (s : BridgeState) (h : s.isRecording = false) :
    startHandshakeFail s
      = cleanup { startSyncState s with streamLive := some true } := by
  unfold startHandshakeFail
  rw [startSync_not_recording s h]
  rfl

theorem startDeviceFailIn_eq (s : BridgeState) (h : s.isRecording = false) :
    startDeviceFailIn s = cleanup s := by
  unfold startDeviceFailIn
  rw [if_neg (by simp [h])]

theorem startDeviceFailOut_eq (s : BridgeState) (h : s.isRecording = false) :
    startDeviceFailOut s
      = cleanup { s with inputCtxs := s.inputCtxs ++ [true] } := by
  unfold startDeviceFailOut
  rw [if_neg (by simp [h])]

theorem startOk_eq (s : BridgeState) (h : s.isRecording = false) :
    startOk s = { startSyncState s with streamLive := some true, isRecording := true, sessionOpen := some true } := by
  unfold startOk
  rw [startSync_not_recording s h]
  rfl

/-! # Claims -/

/-- C1: For every sequence of inbound audio frames with durations
d1…dn, processed in arrival order by the message handler, the computed
playback start times are non-decreasing, each frame's start time is at
least the previous frame's start time plus its duration (no overlap) —
each start being `max(previously scheduled end, current playback
clock)` — and the scheduled-end marker `nextStartTime` is monotonically
non-decreasing across the whole run. -/
theorem c1_inbound_scheduling (nst : ℚ) (frames : List (ℚ × ℚ))
    (h : ∀ f ∈ frames, 0 ≤ f.1) :
    List.Chain' (fun p q : ℚ × ℚ => p.1 + p.2 ≤ q.1) (sched nst frames) ∧
    List.Chain' (· ≤ ·) ((sched nst frames).map Prod.fst) ∧
    List.Chain' (· ≤ ·) (nst :: nstTrace nst frames) :=
  ⟨sched_chain_no_overlap frames nst, sched_starts_mono frames h nst,
   nstTrace_mono frames h nst⟩

/-- Witness for C1: three frames of durations 1, 2, 1 arriving at clock
times 0, 5, 4 from an initial marker of 0. -/
theorem c1_inbound_scheduling_witness :
    List.Chain' (fun p q : ℚ × ℚ => p.1 + p.2 ≤ q.1)
        (sched 0 [(1, 0), (2, 5), (1, 4)]) ∧
    List.Chain' (· ≤ ·) ((sched 0 [(1, 0), (2, 5), (1, 4)]).map Prod.fst) ∧
    List.Chain' (· ≤ ·) ((0 : ℚ) :: nstTrace 0 [(1, 0), (2, 5), (1, 4)]) :=
  c1_inbound_scheduling 0 [(1, 0), (2, 5), (1, 4)]
    (by intro f hf; simp only [List.mem_cons, List.not_mem_nil, or_false] at hf
        rcases hf with rfl | rfl | rfl <;> norm_num)

/-- C7: for every input sample `x` (also outside [-1, 1]), the encoded
16-bit value is `x * 32768` truncated toward zero and reduced modulo
2^16 into the signed 16-bit range — no clamping, out-of-range inputs
wrap.  The first conjunct characterizes `encodeSampleInt` exactly (a
value in signed 16-bit range congruent to the truncation mod 2^16 is
unique); the remaining conjuncts exhibit the wrapping on concrete
out-of-range inputs, where clamping would instead give 32767. -/
theorem c7_no_clamp_wrap :
    (∀ x : ℚ, (-32768 ≤ encodeSampleInt x ∧ encodeSampleInt x < 32768) ∧
       encodeSampleInt x % 65536 = ratTrunc (x * 32768) % 65536) ∧
    encodeSampleInt 1 = -32768 ∧ encodeSampleInt (3 / 2) = -16384 ∧
    encodeSampleInt 2 = 0 := by
  refine ⟨fun x => ⟨toInt16_range _, ?_⟩, ?_, ?_, ?_⟩
  · unfold encodeSampleInt toInt16
    omega
  · norm_num [encodeSampleInt, ratTrunc, toInt16]
  · norm_num [encodeSampleInt, ratTrunc, toInt16]
  · norm_num [encodeSampleInt, ratTrunc, toInt16]

/-- C2 as stated is false: the sample 1.0 lies in the valid normalized
range [-1.0, 1.0], but `createBlob` wraps it to -32768, which decodes
to -1.0 — an error of 2, far beyond one quantization step. -/
theorem c2_roundtrip_counterexample :
    ((-1 : ℚ) ≤ 1 ∧ (1 : ℚ) ≤ 1) ∧
    decodeAudioDataM (b64Decode (createBlobData [1])) 1 = some [[-1]] ∧
    ¬ (|(-1 : ℚ) - 1| ≤ 1 / 32768) := by
  refine ⟨by norm_num, ?_, by norm_num⟩
  have h1 : createBlobInts [1] = [-32768] := by
    simp only [createBlobInts, List.map_cons, List.map_nil]
    norm_num [encodeSampleInt, ratTrunc, toInt16]
  unfold createBlobData
  rw [h1, b64Decode_b64Encode _ (intsToBytes_lt_256 _)]
  have h2 : intsToBytes [-32768] = [0, 128] := by decide
  rw [h2]
  show decodeAudioDataM [0, 128] 1 = some [[-1]]
  have h3 : bytesToInt16s [0, 128] = [-32768] := by decide
  unfold decodeAudioDataM
  rw [if_pos (by decide)]
  rw [h3]
  simp only [List.length_cons, List.length_nil, Nat.div_one]
  rw [show List.range 1 = [0] from rfl]
  simp only [List.map_cons, List.map_nil, mul_one, add_zero,
    List.getD_cons_zero]
  norm_num [decodeSampleQ]

/-- C2 amended: restricted to samples in [-1, 1), where the conversion
does not wrap, encoding through `createBlob` and decoding through the
transport and `decodeAudioData` yields every sample within one
quantization step (±1/32768) of the original. -/
theorem c2_roundtrip_in_range (xs : List ℚ)
    (h : ∀ x ∈ xs, -1 ≤ x ∧ x < 1) :
    decodeAudioDataM (b64Decode (createBlobData xs)) 1
      = some [xs.map (fun x => decodeSampleQ (encodeSampleInt x))] ∧
    ∀ x ∈ xs, |decodeSampleQ (encodeSampleInt x) - x| ≤ 1 / 32768 := by
  constructor
  · unfold createBlobData
    rw [pipeline_eq _ (createBlobInts_range xs)]
    unfold createBlobInts
    rw [List.map_map]
    rfl
  · exact fun x hx => sample_roundtrip_close x (h x hx).1 (h x hx).2

/-- Witness for the amended C2 at the frame [1/2, -1]. -/
theorem c2_roundtrip_in_range_witness :
    (decodeAudioDataM (b64Decode (createBlobData [(1 : ℚ) / 2, -1])) 1
      = some [[(1 : ℚ) / 2, -1].map (fun x => decodeSampleQ (encodeSampleInt x))]) ∧
    ∀ x ∈ [(1 : ℚ) / 2, -1], |decodeSampleQ (encodeSampleInt x) - x| ≤ 1 / 32768 :=
  c2_roundtrip_in_range [(1 : ℚ) / 2, -1]
    (by intro x hx; simp only [List.mem_cons, List.not_mem_nil, or_false] at hx
        rcases hx with rfl | rfl <;> norm_num)

/-- C8: a frame of all-zero samples round-trips through `createBlob`,
the transport encoding and `decodeAudioData` to exactly all-zero
samples, for every frame length. -/
theorem c8_silence_exact (n : ℕ) :
    decodeAudioDataM (b64Decode (createBlobData (List.replicate n 0))) 1
      = some [List.replicate n 0] := by
  unfold createBlobData
  rw [pipeline_eq _ (createBlobInts_range _)]
  unfold createBlobInts
  rw [List.map_replicate, List.map_replicate]
  rw [show encodeSampleInt 0 = 0 by norm_num [encodeSampleInt, ratTrunc, toInt16]]
  rw [show decodeSampleQ 0 = 0 by norm_num [decodeSampleQ]]

/-- C9: the textual transport helpers are mutually inverse — decoding
an encoded byte array returns it element-for-element (bytes are values
below 256, as produced by `Uint8Array`). -/
theorem c9_transport_roundtrip (bs : List ℕ) (h : ∀ b ∈ bs, b < 256) :
    b64Decode (b64Encode bs) = bs :=
  b64Decode_b64Encode bs h

/-- Witness for C9 covering all padding shapes. -/
theorem c9_transport_roundtrip_witness :
    b64Decode (b64Encode [0, 1, 127, 128, 255]) = [0, 1, 127, 128, 255] ∧
    b64Decode (b64Encode [77]) = [77] :=
  ⟨c9_transport_roundtrip [0, 1, 127, 128, 255] (by decide),
   c9_transport_roundtrip [77] (by decide)⟩

/-- C10: `decodeAudioData` reinterprets the payload as 16-bit values:
an odd byte count makes the `Int16Array` construction fail (the step
aborts with no buffer), and an even byte count yields exactly
byteLength/2 samples (single-channel call as in `onmessage`). -/
theorem c10_even_length_only (bs : List ℕ) :
    (bs.length % 2 = 1 → decodeAudioDataM bs 1 = none) ∧
    (bs.length % 2 = 0 →
      decodeAudioDataM bs 1 = some [(bytesToInt16s bs).map decodeSampleQ] ∧
      ((bytesToInt16s bs).map decodeSampleQ).length = bs.length / 2) := by
  constructor
  · intro h
    unfold decodeAudioDataM
    rw [if_neg (by omega)]
  · intro h
    unfold decodeAudioDataM
    rw [if_pos h]
    constructor
    · rw [show List.range 1 = [0] from rfl]
      simp only [List.map_cons, List.map_nil, Nat.div_one, mul_one, add_zero]
      rw [range_map_getD _ 0 decodeSampleQ]
    · rw [List.length_map]
      exact bytesToInt16s_length bs

/-- Witness for C10: an odd payload of 3 bytes and an even payload of
4 bytes. -/
theorem c10_even_length_only_witness :
    decodeAudioDataM [0, 1, 2] 1 = none ∧
    (decodeAudioDataM [0, 1, 2, 3] 1
        = some [(bytesToInt16s [0, 1, 2, 3]).map decodeSampleQ] ∧
      ((bytesToInt16s [0, 1, 2, 3]).map decodeSampleQ).length
        = [0, 1, 2, 3].length / 2) :=
  ⟨(c10_even_length_only [0, 1, 2]).1 (by decide),
   (c10_even_length_only [0, 1, 2, 3]).2 (by decide)⟩

/-- C3 as stated is false: when `getUserMedia` rejects, the `catch`
block of `startSession` only logs and runs `cleanup` — the `'error'`
emit count stays 0, not the claimed exactly-once. -/
theorem c3_permission_denied_counterexample :
    (startDenied initState).errorCount = 0 ∧
    (startDenied initState).errorCount ≠ 1 := by
  exact ⟨rfl, by decide⟩

/-- C3 amended: if microphone permission is denied, `start()` leaves
the bridge idle (not recording, session null, resources torn down) and
never invokes the speaking-start callback, but it also does not invoke
the owner's error callback — the failure is only logged. -/
theorem c3_permission_denied_silent (s : BridgeState)
    (h : s.isRecording = false) :
    (startDenied s).isRecording = false ∧
    (startDenied s).sessionOpen = none ∧
    (startDenied s).errorCount = s.errorCount ∧
    (startDenied s).speakingCount = s.speakingCount ∧
    tornDown (startDenied s) := by
  rw [startDenied_eq s h]
  exact ⟨rfl, rfl, rfl, rfl, tornDown_cleanup _⟩

/-- Witness for the amended C3 from the freshly mounted state. -/
theorem c3_permission_denied_silent_witness :
    (startDenied initState).isRecording = false ∧
    (startDenied initState).sessionOpen = none ∧
    (startDenied initState).errorCount = initState.errorCount ∧
    (startDenied initState).speakingCount = initState.speakingCount ∧
    tornDown (startDenied initState) :=
  c3_permission_denied_silent initState rfl

/-- C4 as stated is false: the five failure classes are not handled
identically — after a successful start, a remote-initiated close runs
`cleanup` without notifying the owner (error emit count stays 0) while
a remote error does notify (count becomes 1). -/
theorem c4_uniform_failure_counterexample :
    (remoteClosed (startOk initState)).errorCount = 0 ∧
    (remoteError (startOk initState)).errorCount = 1 := by
  exact ⟨rfl, rfl⟩

/-- C4 amended: every failure class performs full teardown via
`cleanup` and none is retried, but only `RemoteError` notifies the
owner through the error callback (emitting before tearing down);
`PermissionDenied`, `DeviceInitFailure` (either context constructor),
`HandshakeFailure` are logged without notification, and `RemoteClosed`
is silent.  The start-path classes occur only while not yet recording
(the guard returns early otherwise); `RemoteError` and `RemoteClosed`
tear down from every state, mid-session recording states included. -/
theorem c4_teardown_policy (s : BridgeState) (h : s.isRecording = false) :
    (tornDown (startDenied s) ∧ (startDenied s).errorCount = s.errorCount) ∧
    (tornDown (startDeviceFailIn s) ∧
      (startDeviceFailIn s).errorCount = s.errorCount) ∧
    (tornDown (startDeviceFailOut s) ∧
      (startDeviceFailOut s).errorCount = s.errorCount) ∧
    (tornDown (startHandshakeFail s) ∧
      (startHandshakeFail s).errorCount = s.errorCount) ∧
    (∀ t : BridgeState, tornDown (remoteError t) ∧
      (remoteError t).errorCount = t.errorCount + 1) ∧
    (∀ t : BridgeState, tornDown (remoteClosed t) ∧
      (remoteClosed t).errorCount = t.errorCount) := by
  refine ⟨?_, ?_, ?_, ?_, ?_, ?_⟩
  · rw [startDenied_eq s h]
    exact ⟨tornDown_cleanup _, rfl⟩
  · rw [startDeviceFailIn_eq s h]
    exact ⟨tornDown_cleanup _, rfl⟩
  · rw [startDeviceFailOut_eq s h]
    exact ⟨tornDown_cleanup _, rfl⟩
  · rw [startHandshakeFail_eq s h]
    exact ⟨tornDown_cleanup _, rfl⟩
  · exact fun t => ⟨tornDown_cleanup _, rfl⟩
  · exact fun t => ⟨tornDown_cleanup _, rfl⟩

/-- Witness for the amended C4: the start-path classes from the
freshly mounted idle state, and the remote classes from the recording
state reached by a successful start (mid-session). -/
theorem c4_teardown_policy_witness :
    (tornDown (startDenied initState) ∧
      (startDenied initState).errorCount = initState.errorCount) ∧
    (tornDown (startDeviceFailIn initState) ∧
      (startDeviceFailIn initState).errorCount = initState.errorCount) ∧
    (tornDown (startDeviceFailOut initState) ∧
      (startDeviceFailOut initState).errorCount = initState.errorCount) ∧
    (tornDown (startHandshakeFail initState) ∧
      (startHandshakeFail initState).errorCount = initState.errorCount) ∧
    (tornDown (remoteError (startOk initState)) ∧
      (remoteError (startOk initState)).errorCount
        = (startOk initState).errorCount + 1) ∧
    (tornDown (remoteClosed (startOk initState)) ∧
      (remoteClosed (startOk initState)).errorCount
        = (startOk initState).errorCount) :=
  ⟨(c4_teardown_policy initState rfl).1,
   (c4_teardown_policy initState rfl).2.1,
   (c4_teardown_policy initState rfl).2.2.1,
   (c4_teardown_policy initState rfl).2.2.2.1,
   (c4_teardown_policy initState rfl).2.2.2.2.1 (startOk initState),
   (c4_teardown_policy initState rfl).2.2.2.2.2 (startOk initState)⟩

/-- C5: `stop()` (`cleanup`) is a no-op on the never-started bridge (no
state change, no callback), is idempotent in general, fires no callback
from any state, and after a successful start a single call releases the
session, stream and both contexts (the second call then changes
nothing, so resources are released exactly once). -/
theorem c5_stop_idempotent :
    cleanup initState = initState ∧
    (∀ s : BridgeState, cleanup (cleanup s) = cleanup s) ∧
    (∀ s : BridgeState, (cleanup s).errorCount = s.errorCount ∧
        (cleanup s).speakingCount = s.speakingCount) ∧
    tornDown (cleanup (startOk initState)) :=
  ⟨rfl, cleanup_cleanup, cleanup_counts, tornDown_cleanup _⟩

/-- C6 as stated is false: `startSession`'s guard reads `isRecording`,
which only becomes true at `onopen`; a second `start()` issued before
the first handshake settles passes the guard and constructs a second
pair of audio contexts, so two capture contexts are alive at once. -/
theorem c6_reentrant_start_counterexample :
    aliveCount (startSync (startSync initState).1).1.inputCtxs = 2 := by
  decide

/-- C6 amended: calling `start()` while the bridge is recording is a
no-op (no new contexts, stream or session; state unchanged), `stop()`
tears everything down unconditionally from any state, and at most one
capture and one playback context are alive at any time provided
`start()` is not re-entered while a previous attempt is still pending
and no playback-context construction failure orphans a capture context
(the at-most-one-session part holds by construction: the bridge keeps a
single session reference). -/
theorem c6_resource_lifecycle :
    (∀ s : BridgeState, s.isRecording = true → startSync s = (s, false)) ∧
    (∀ s : BridgeState, tornDown (cleanup s)) ∧
    (∀ tr : List BridgeEv, BridgeEv.startDeviceFailOutE ∉ tr →
      aliveCount (runEvs initState tr).inputCtxs ≤ 1 ∧
      aliveCount (runEvs initState tr).outputCtxs ≤ 1) :=
  ⟨startSync_recording, tornDown_cleanup,
   fun tr htr => liveInv_alive_le_one _ (liveInv_run tr initState liveInv_init htr)⟩

/-- Witness for the amended C6: a started bridge ignores `start()`, a
fresh bridge tears down, and a start/stop trace keeps at most one
context per pool. -/
theorem c6_resource_lifecycle_witness :
    startSync (startOk initState) = (startOk initState, false) ∧
    tornDown (cleanup initState) ∧
    (aliveCount (runEvs initState [BridgeEv.startOkE, BridgeEv.stopE]).inputCtxs ≤ 1 ∧
     aliveCount (runEvs initState [BridgeEv.startOkE, BridgeEv.stopE]).outputCtxs ≤ 1) :=
  ⟨c6_resource_lifecycle.1 (startOk initState) rfl,
   c6_resource_lifecycle.2.1 initState,
   c6_resource_lifecycle.2.2 [BridgeEv.startOkE, BridgeEv.stopE] (by decide)⟩
